import Mathlib

/-!
Verification of the multimodal context assembler of Chat-3D-v2.

The definitions below are a shallow embedding of the relevant functions of
`models/chat3d.py` and `others/calc_scanrefer_grounding_acc.py`:

* tensors of embedding rows become Lean lists over an abstract row type `α`
  (a row's contents are irrelevant to the interleaving logic);
* float scalars become rationals `ℚ`; where IEEE infinities matter
  (`get_min_max_coord`) an explicit three-constructor type `PFloat` with
  `-∞ / finite / +∞` is used;
* the ambient random source used by `random.shuffle` is modelled by passing
  the post-shuffle list of valid ids as an explicit argument, constrained in
  theorems to be a permutation of the mask's valid indices;
* `Tensor.detach()` is the identity on values (it only cuts gradients), so it
  is embedded as the identity.
-/

namespace Chat3D

/-- Model of `torch.where(scene_mask == 1)[0].tolist()`: the (sorted) indices of the
valid object slots of one scene. -/
def validIds (scene_mask : List ℤ) : List Nat :=
  (List.range scene_mask.length).filter (fun i => scene_mask.getD i 0 = 1)

/-- Strided slice assignment `l[start::stride] = vals` (torch semantics:
position `start + k * stride` receives `vals[k]`). -/
def assignStride {α : Type} : List α → Nat → Nat → List α → List α
  | l, _, _, [] => l
  | l, s, stride, v :: vs => assignStride (l.set s v) (s + stride) stride vs

/-- The interleaving layout width chosen by which optional modality tensors
are present (`None` / non-`None` in the source). -/
def layoutWidth {α : Type} : Option (List α) → Option (List α) → Nat
  | none, none => 2
  | none, some _ => 3
  | some _, none => 3
  | some _, some _ => 4

/-- Embedding of `Chat3D.get_object_list_embed` (chat3d.py, lines 320-362), after the
`random.shuffle` call: `valid_ids` is the already-shuffled list of valid slot
indices.

Note on the source's single-valid-object block (lines 322-329): when
`len(valid_ids) == 1` the source builds a 2-row block
`[objid_embeds[random.randint(0, 199)], embed_obj[0]]`, but there is no
`return` there; control falls through to the strided general path, whose four
`if` branches are exhaustive over `(embed_img, embed_scene)` being `None` or
not, so `object_list_embed` is unconditionally reassigned and the special
block is dead.  The embedding therefore consists of the general path only. -/
def get_object_list_embed {α : Type} (zero : α) (objid_embeds : List α)
    (embed_obj : List α) (embed_img embed_scene : Option (List α))
    (valid_ids : List Nat) : List α :=
  let selected_objid_embeds := valid_ids.map (fun i => objid_embeds.getD i zero)
  let n := selected_objid_embeds.length
  match embed_img, embed_scene with
  | none, none =>
    let l0 := assignStride (List.replicate (n * 2) zero) 0 2 selected_objid_embeds
    assignStride l0 1 2 (valid_ids.map (fun i => embed_obj.getD i zero))
  | none, some es =>
    let l0 := assignStride (List.replicate (n * 3) zero) 0 3 selected_objid_embeds
    let l1 := assignStride l0 1 3 (valid_ids.map (fun i => embed_obj.getD i zero))
    assignStride l1 2 3 (valid_ids.map (fun i => es.getD i zero))
  | some ei, none =>
    let l0 := assignStride (List.replicate (n * 3) zero) 0 3 selected_objid_embeds
    let l1 := assignStride l0 1 3 (valid_ids.map (fun i => embed_obj.getD i zero))
    assignStride l1 2 3 (valid_ids.map (fun i => ei.getD i zero))
  | some ei, some es =>
    let l0 := assignStride (List.replicate (n * 4) zero) 0 4 selected_objid_embeds
    let l1 := assignStride l0 1 4 (valid_ids.map (fun i => embed_obj.getD i zero))
    let l2 := assignStride l1 2 4 (valid_ids.map (fun i => ei.getD i zero))
    assignStride l2 3 4 (valid_ids.map (fun i => es.getD i zero))

/-- One training example of `forward_stage2` (chat3d.py, lines 437-468), as
assembled inside the per-question loop: the four wrapped embedding segments,
the answer embedding, and the answer's token ids and attention mask as
returned by the tokenizer. -/
structure Stage2Example (α : Type) where
  p_0_embed : List α
  object_list_embed : List α
  p_1_embed : List α
  prompt_embed : List α
  to_regress_embed : List α
  answer_ids : List ℤ
  answer_attn : List ℤ

/-- Model of `wrapped_embed = torch.cat([p_0_embed, object_list_embed, p_1_embed,
prompt_embed], dim=0)` (line 447). -/
def wrapped_embed {α : Type} (e : Stage2Example α) : List α :=
  e.p_0_embed ++ e.object_list_embed ++ e.p_1_embed ++ e.prompt_embed

/-- Model of `input_embed = torch.cat([wrapped_embed, to_regress_embed], dim=0)`
(line 463). -/
def input_embed {α : Type} (e : Stage2Example α) : List α :=
  wrapped_embed e ++ e.to_regress_embed

/-- Model of `attn = torch.cat([wrapped_attn, to_regress_token.attention_mask[0]])`
where `wrapped_attn = torch.ones(...)` (lines 448, 464). -/
def exampleAttn {α : Type} (e : Stage2Example α) : List ℤ :=
  List.replicate (wrapped_embed e).length 1 ++ e.answer_attn

/-- Model of `target = torch.cat([empty_target, answer_target])` where `empty_target`
is `-100` over the wrapped segments, and `answer_target` is the answer token
ids with pad-token positions replaced by `-100` (lines 449-462). -/
def exampleTarget {α : Type} (pad_token_id : ℤ) (e : Stage2Example α) : List ℤ :=
  List.replicate (wrapped_embed e).length (-100)
    ++ e.answer_ids.map (fun t => if t = pad_token_id then -100 else t)

/-- The maximum sequence length over a batch of sequences (0 on an empty
batch); `max_seq_len = max(max_seq_len, target.shape[0])` loop of line 468
and `padded.shape[1]` of `torch.nn.utils.rnn.pad_sequence`. -/
def maxLen {α : Type} (ls : List (List α)) : Nat :=
  ls.foldr (fun t m => max t.length m) 0

/-- Model of `pad_sequence(tensor_list, batch_first=True, padding_value=pv)`: right-pad
every sequence to the batch maximum length.  (torch raises on an empty batch;
the model returns the empty batch.) -/
def pad_sequence {α : Type} (tensor_list : List (List α)) (padding_value : α) :
    List (List α) :=
  tensor_list.map
    (fun t => t ++ List.replicate (maxLen tensor_list - t.length) padding_value)

/-- Embedding of `pad_and_trim` (chat3d.py, lines 472-476): pad to the batch maximum, then
keep only the first `max_len` columns when the padded width exceeds it. -/
def pad_and_trim {α : Type} (tensor_list : List (List α)) (max_len : Nat)
    (padding_value : α) : List (List α) :=
  let padded := pad_sequence tensor_list padding_value
  if max_len < maxLen tensor_list then padded.map (fun r => r.take max_len)
  else padded

/-- The batch-assembly tail of `forward_stage2` (chat3d.py, lines 432-480):
per-example targets, `max_seq_len = min(768, max target length)`, and the
three `pad_and_trim` calls.  Returns
`(max_seq_len, input_embeds, attention_mask, targets)`. -/
def forward_stage2_pack {α : Type} (pad_token_id : ℤ) (zero : α)
    (examples : List (Stage2Example α)) :
    Nat × List (List α) × List (List ℤ) × List (List ℤ) :=
  let target_list := examples.map (exampleTarget pad_token_id)
  let max_seq_len := min 768 (maxLen target_list)
  (max_seq_len,
   pad_and_trim (examples.map input_embed) max_seq_len zero,
   pad_and_trim (examples.map exampleAttn) max_seq_len 0,
   pad_and_trim target_list max_seq_len (-100))

/-- An IEEE-like scalar: `-∞`, a finite value, or `+∞` (no NaN arises in the
modelled code path). -/
inductive PFloat where
  | ninf : PFloat
  | fin : ℚ → PFloat
  | pinf : PFloat
deriving DecidableEq

/-- Minimum of two `PFloat`s. -/
def PFloat.minP : PFloat → PFloat → PFloat
  | ninf, _ => ninf
  | _, ninf => ninf
  | pinf, b => b
  | a, pinf => a
  | fin a, fin b => fin (min a b)

/-- Maximum of two `PFloat`s. -/
def PFloat.maxP : PFloat → PFloat → PFloat
  | pinf, _ => pinf
  | _, pinf => pinf
  | ninf, b => b
  | a, ninf => a
  | fin a, fin b => fin (max a b)

/-- Reduction `tensor.min(dim=1)[0]` over the object axis, one component:
fold of `minP` with identity `+∞`.  (torch raises on an empty axis; all
callers pass at least one object slot.) -/
def reduceMin (l : List PFloat) : PFloat := l.foldr PFloat.minP PFloat.pinf

/-- Reduction `tensor.max(dim=1)[0]` over the object axis, one component. -/
def reduceMax (l : List PFloat) : PFloat := l.foldr PFloat.maxP PFloat.ninf

/-- Embedding of `Chat3D.get_min_max_coord` (chat3d.py, lines 405-411) for one scene:
substitute `+∞` (resp. `-∞`) at slots with `scene_mask <= 0`, then reduce
componentwise over the object axis. -/
def get_min_max_coord (xyz : List (ℚ × ℚ × ℚ)) (scene_mask : List ℤ) :
    (PFloat × PFloat × PFloat) × (PFloat × PFloat × PFloat) :=
  let masked_xyz_min := (List.zip scene_mask xyz).map (fun p =>
    if 0 < p.1 then (PFloat.fin p.2.1, PFloat.fin p.2.2.1, PFloat.fin p.2.2.2)
    else (PFloat.pinf, PFloat.pinf, PFloat.pinf))
  let masked_xyz_max := (List.zip scene_mask xyz).map (fun p =>
    if 0 < p.1 then (PFloat.fin p.2.1, PFloat.fin p.2.2.1, PFloat.fin p.2.2.2)
    else (PFloat.ninf, PFloat.ninf, PFloat.ninf))
  ((reduceMin (masked_xyz_min.map (fun v => v.1)),
    reduceMin (masked_xyz_min.map (fun v => v.2.1)),
    reduceMin (masked_xyz_min.map (fun v => v.2.2))),
   (reduceMax (masked_xyz_max.map (fun v => v.1)),
    reduceMax (masked_xyz_max.map (fun v => v.2.1)),
    reduceMax (masked_xyz_max.map (fun v => v.2.2))))

/-- Spec-side reading of §4.2: the minimum of one coordinate component over
the valid objects only (`+∞` when no object is valid). -/
def validMin (scene_mask : List ℤ) (vals : List ℚ) : PFloat :=
  (((List.zip scene_mask vals).filter (fun p => 0 < p.1)).map
    (fun p => PFloat.fin p.2)).foldr PFloat.minP PFloat.pinf

/-- Spec-side reading of §4.2: the maximum of one coordinate component over
the valid objects only (`-∞` when no object is valid). -/
def validMax (scene_mask : List ℤ) (vals : List ℚ) : PFloat :=
  (((List.zip scene_mask vals).filter (fun p => 0 < p.1)).map
    (fun p => PFloat.fin p.2)).foldr PFloat.maxP PFloat.ninf

/-- Embedding of `Chat3D.get_text_emb` (chat3d.py, lines 290-299), on values.
`embed_tokens` is the language model's embedding table; `.detach()` is the
identity on values, so the `train_emb` branch computes
`(1 - indices) * embeds + indices * embeds` per token, with `indices = 1`
exactly on extended-vocabulary (object-identifier) token ids. -/
def get_text_emb (train_emb : Bool) (ori_vocab_size : Nat)
    (embed_tokens : Nat → List ℚ) (input_ids : List Nat) : List (List ℚ) :=
  if train_emb then
    input_ids.map (fun t =>
      let indices : ℚ := if ori_vocab_size ≤ t then 1 else 0
      (embed_tokens t).map (fun x => (1 - indices) * x + indices * x))
  else
    input_ids.map (fun t => embed_tokens t)

/-- Python `text.split(sep)[0]` for a non-empty separator: the part of `text`
before the first occurrence of `sep` (all of `text` when `sep` does not
occur). -/
def pySplitHead (sep : List Char) : List Char → List Char
  | [] => []
  | c :: cs => if sep.isPrefixOf (c :: cs) then [] else c :: pySplitHead sep cs

/-- Python `text.replace(old, new)`: replace every non-overlapping occurrence
of `old`, scanning left to right. -/
def pyReplace (old new : List Char) : List Char → List Char
  | [] => []
  | c :: cs =>
    if h : old ≠ [] ∧ old.isPrefixOf (c :: cs) then
      new ++ pyReplace old new ((c :: cs).drop old.length)
    else
      c :: pyReplace old new cs
termination_by s => s.length
decreasing_by
  · simp only [List.length_drop, List.length_cons]
    have : old.length ≠ 0 := by
      intro hc
      exact h.1 (List.length_eq_zero.mp hc)
    omega
  · simp

/-- Python whitespace (the ASCII characters stripped by `str.strip()`). -/
def isPySpace (c : Char) : Bool :=
  c = ' ' ∨ c = '\t' ∨ c = '\n' ∨ c = '\x0b' ∨ c = '\x0c' ∨ c = '\r'

/-- Python `text.strip()`: drop leading and trailing whitespace. -/
def pyStrip (s : List Char) : List Char :=
  ((s.dropWhile isPySpace).reverse.dropWhile isPySpace).reverse

/-- The decoded-text post-processing of `Chat3D.evaluate` (chat3d.py, lines
556-560): `output_text.split(self.end_sym)[0]`, then `.replace('  ', ' ')`,
then `.replace(' .', '.')`, then `.strip()`. -/
def postprocessOutput (end_sym output_text : List Char) : List Char :=
  pyStrip (pyReplace [' ', '.'] ['.']
    (pyReplace [' ', ' '] [' '] (pySplitHead end_sym output_text)))

/-- Embedding of `construct_bbox_corners` (calc_scanrefer_grounding_acc.py, lines 55-66):
the eight corners of the axis-aligned box with the given center and size,
after the transpose (one `(x, y, z)` triple per row). -/
def construct_bbox_corners (center box_size : ℚ × ℚ × ℚ) : List (ℚ × ℚ × ℚ) :=
  let sx := box_size.1
  let sy := box_size.2.1
  let sz := box_size.2.2
  let x_corners : List ℚ := [sx / 2, sx / 2, -sx / 2, -sx / 2, sx / 2, sx / 2, -sx / 2, -sx / 2]
  let y_corners : List ℚ := [sy / 2, -sy / 2, -sy / 2, sy / 2, sy / 2, -sy / 2, -sy / 2, sy / 2]
  let z_corners : List ℚ := [sz / 2, sz / 2, sz / 2, sz / 2, -sz / 2, -sz / 2, -sz / 2, -sz / 2]
  (x_corners.map (fun v => v + center.1)).zip
    ((y_corners.map (fun v => v + center.2.1)).zip
      (z_corners.map (fun v => v + center.2.2)))

/-- numpy `corner.min(axis=0)`, one column (raises on an empty array; the
model returns 0 there, a case no caller reaches). -/
def npColMin : List ℚ → ℚ
  | [] => 0
  | x :: xs => xs.foldl min x

/-- numpy `corner.max(axis=0)`, one column. -/
def npColMax : List ℚ → ℚ
  | [] => 0
  | x :: xs => xs.foldl max x

/-- Embedding of `get_box3d_min_max` (calc_scanrefer_grounding_acc.py, lines 8-25):
`(x_min, x_max, y_min, y_max, z_min, z_max)` of a list of corners. -/
def get_box3d_min_max (corner : List (ℚ × ℚ × ℚ)) : ℚ × ℚ × ℚ × ℚ × ℚ × ℚ :=
  (npColMin (corner.map (fun v => v.1)), npColMax (corner.map (fun v => v.1)),
   npColMin (corner.map (fun v => v.2.1)), npColMax (corner.map (fun v => v.2.1)),
   npColMin (corner.map (fun v => v.2.2)), npColMax (corner.map (fun v => v.2.2)))

theorem length_assignStride {α : Type} (vals : List α) :
    ∀ (l : List α) (s stride : Nat), (assignStride l s stride vals).length = l.length := by
  induction vals with
  | nil => intro l s stride; rfl
  | cons v vs ih =>
    intro l s stride
    simp only [assignStride, ih, List.length_set]

theorem length_get_object_list_embed {α : Type} (zero : α) (objid_embeds : List α)
    (embed_obj : List α) (embed_img embed_scene : Option (List α))
    (valid_ids : List Nat) :
    (get_object_list_embed zero objid_embeds embed_obj embed_img embed_scene valid_ids).length
      = valid_ids.length * layoutWidth embed_img embed_scene := by
  cases embed_img <;> cases embed_scene <;>
    simp [get_object_list_embed, layoutWidth, length_assignStride]

/-- Positions that are not of the form `start + k * stride` (for
`k < vals.length`) are left untouched by `assignStride`. -/
theorem getElem?_assignStride_miss {α : Type} (vals : List α) :
    ∀ (l : List α) (s stride j : Nat),
      (∀ k, k < vals.length → j ≠ s + k * stride) →
      (assignStride l s stride vals)[j]? = l[j]? := by
  induction vals with
  | nil => intro l s stride j _; rfl
  | cons v vs ih =>
    intro l s stride j h
    have hj0 : j ≠ s := by
      have := h 0 (by simp)
      simpa using this
    have hrest : ∀ k, k < vs.length → j ≠ (s + stride) + k * stride := by
      intro k hk hceq
      exact h (k + 1) (by simpa using Nat.succ_lt_succ hk) (by rw [hceq]; ring)
    simp only [assignStride]
    rw [ih (l.set s v) (s + stride) stride j hrest]
    exact List.getElem?_set_ne (fun hc => hj0 hc.symm)

/-- Assignment lemma: `assignStride` writes `vals[k]` at position `start + k * stride`. -/
theorem getElem?_assignStride_hit {α : Type} (vals : List α) :
    ∀ (l : List α) (s stride k : Nat), 0 < stride → k < vals.length →
      s + k * stride < l.length →
      (assignStride l s stride vals)[s + k * stride]? = vals[k]? := by
  induction vals with
  | nil => intro l s stride k _ hk _; exact absurd hk (by simp)
  | cons v vs ih =>
    intro l s stride k hstride hk hlen
    match k with
    | 0 =>
      simp only [Nat.zero_mul, Nat.add_zero] at hlen ⊢
      simp only [assignStride]
      rw [getElem?_assignStride_miss vs (l.set s v) (s + stride) stride s
        (by intro k _; omega)]
      rw [List.getElem?_set_eq_of_lt v hlen]
      simp
    | k + 1 =>
      simp only [assignStride]
      have hpos : s + (k + 1) * stride = (s + stride) + k * stride := by ring
      rw [hpos]
      rw [ih (l.set s v) (s + stride) stride k hstride (by simpa using hk)
        (by rw [List.length_set]; omega)]
      simp

/-- Residue lemma: `assignStride` leaves every position whose residue modulo the stride
differs from the start's residue untouched. -/
theorem getElem?_assignStride_mod_miss {α : Type} (vals l : List α) (r w j : Nat)
    (hne : j % w ≠ r % w) :
    (assignStride l r w vals)[j]? = l[j]? := by
  apply getElem?_assignStride_miss
  intro k _ hceq
  apply hne
  rw [hceq]
  exact Nat.add_mul_mod_self_right r k w

theorem getElem?_map_getD {β α : Type} (f : β → α) (l : List β) (d : β) (k : Nat)
    (hk : k < l.length) : (l.map f)[k]? = some (f (l.getD k d)) := by
  rw [List.getElem?_map, List.getElem?_eq_getElem hk, List.getD_eq_getElem l d hk]
  rfl

/-- C2: for every scene, the interleaved object block returned by
`get_object_list_embed` (with the shuffled valid-id order) has exactly
`validCount * layoutWidth` rows, where the layout width is 2 with no optional
modality, 3 with exactly one, and 4 with both. -/
theorem claim_C2_block_length {α : Type} (zero : α) (objid_embeds embed_obj : List α)
    (embed_img embed_scene : Option (List α)) (scene_mask : List ℤ)
    (valid_ids : List Nat)
    (hperm : valid_ids.Perm (validIds scene_mask))
    (h2 : 2 ≤ (validIds scene_mask).length) :
    (get_object_list_embed zero objid_embeds embed_obj embed_img embed_scene
        valid_ids).length
      = (validIds scene_mask).length * layoutWidth embed_img embed_scene := by
  rw [length_get_object_list_embed, hperm.length_eq]

theorem claim_C2_witness :
    (get_object_list_embed (0 : ℤ) [10, 20, 30] [1, 2, 3] none none [2, 0]).length
      = (validIds [1, 0, 1]).length * layoutWidth (none : Option (List ℤ)) none :=
  claim_C2_block_length 0 [10, 20, 30] [1, 2, 3] none none [1, 0, 1] [2, 0]
    (by decide) (by decide)

/-- C1 (corrected): the single-valid-object block of the source is dead code
(no `return`); with exactly one valid object `get_object_list_embed` falls
through to the general strided path and returns one group of `layoutWidth`
rows — 2, 3 or 4 rows depending on the active modalities — whose identifier
row is the identifier embedding at the valid index (not a random one). -/
theorem claim_C1_single_valid_object {α : Type} (zero : α)
    (objid_embeds embed_obj : List α) (embed_img embed_scene : Option (List α))
    (scene_mask : List ℤ) (valid_ids : List Nat) (i : Nat)
    (hone : validIds scene_mask = [i])
    (hperm : valid_ids.Perm (validIds scene_mask)) :
    get_object_list_embed zero objid_embeds embed_obj embed_img embed_scene valid_ids
      = match embed_img, embed_scene with
        | none, none => [objid_embeds.getD i zero, embed_obj.getD i zero]
        | none, some es => [objid_embeds.getD i zero, embed_obj.getD i zero,
            es.getD i zero]
        | some ei, none => [objid_embeds.getD i zero, embed_obj.getD i zero,
            ei.getD i zero]
        | some ei, some es => [objid_embeds.getD i zero, embed_obj.getD i zero,
            ei.getD i zero, es.getD i zero] := by
  rw [hone] at hperm
  have hv : valid_ids = [i] := List.perm_singleton.mp hperm
  subst hv
  cases embed_img <;> cases embed_scene <;> rfl

theorem claim_C1_witness :
    get_object_list_embed (0 : ℤ) [10, 20] [1, 2] (some [4, 5]) none [1]
      = [20, 2, 5] :=
  claim_C1_single_valid_object (0 : ℤ) [10, 20] [1, 2] (some [4, 5]) none
    [0, 1] [1] 1 (by decide) (by decide)

/-- C1 counterexample: a scene whose mask marks exactly one valid object
(slot 0 of two), with the image modality active.  The only possible shuffle
of the one-element valid list is itself, and the returned block has 3 rows,
not the 2 rows the claim asserts for every modality configuration. -/
theorem claim_C1_counterexample :
    validIds [1, 0] = [0] ∧
    (get_object_list_embed (0 : ℤ) [10, 20] [1, 2] (some [5, 6]) none [0]).length
      = 3 := by
  decide

/-- C3: in every layout, for the `k`-th object of the shuffled valid order
the block places its identifier embedding at row `k*w`, its object embedding
at row `k*w + 1`, its image embedding (when active) at row `k*w + 2`, and its
scene embedding (when active) at the group's last row (`k*w + 2` without the
image modality, `k*w + 3` with it), where `w` is the layout width; the same
shuffled order indexes every modality column, and the slot indexed is always
a valid one. -/
theorem claim_C3_strided_layout {α : Type} (zero : α)
    (objid_embeds embed_obj : List α) (embed_img embed_scene : Option (List α))
    (scene_mask : List ℤ) (valid_ids : List Nat) (k : Nat)
    (hperm : valid_ids.Perm (validIds scene_mask))
    (h2 : 2 ≤ (validIds scene_mask).length)
    (hk : k < valid_ids.length) :
    (get_object_list_embed zero objid_embeds embed_obj embed_img embed_scene
        valid_ids)[k * layoutWidth embed_img embed_scene]?
      = some (objid_embeds.getD (valid_ids.getD k 0) zero)
    ∧ (get_object_list_embed zero objid_embeds embed_obj embed_img embed_scene
        valid_ids)[k * layoutWidth embed_img embed_scene + 1]?
      = some (embed_obj.getD (valid_ids.getD k 0) zero)
    ∧ (∀ ei, embed_img = some ei →
        (get_object_list_embed zero objid_embeds embed_obj embed_img embed_scene
          valid_ids)[k * layoutWidth embed_img embed_scene + 2]?
        = some (ei.getD (valid_ids.getD k 0) zero))
    ∧ (∀ es, embed_scene = some es →
        (get_object_list_embed zero objid_embeds embed_obj embed_img embed_scene
          valid_ids)[k * layoutWidth embed_img embed_scene
            + (if embed_img.isNone then 2 else 3)]?
        = some (es.getD (valid_ids.getD k 0) zero))
    ∧ valid_ids.getD k 0 ∈ validIds scene_mask := by
  have hmem : valid_ids.getD k 0 ∈ validIds scene_mask := by
    rw [List.getD_eq_getElem valid_ids 0 hk]
    exact hperm.mem_iff.mp (List.getElem_mem hk)
  cases embed_img with
  | none =>
    cases embed_scene with
    | none =>
      simp only [get_object_list_embed, layoutWidth]
      refine ⟨?_, ?_, fun ei h => Option.noConfusion h,
        fun es h => Option.noConfusion h, hmem⟩
      · refine (getElem?_assignStride_mod_miss _ _ _ _ _ (by omega)).trans ?_
        rw [show k * 2 = 0 + k * 2 by omega]
        refine (getElem?_assignStride_hit _ _ _ _ _ (by norm_num)
          (by simpa using hk) ?_).trans (getElem?_map_getD _ _ 0 _ hk)
        simp
        omega
      · rw [show k * 2 + 1 = 1 + k * 2 by omega]
        refine (getElem?_assignStride_hit _ _ _ _ _ (by norm_num)
          (by simpa using hk) ?_).trans (getElem?_map_getD _ _ 0 _ hk)
        rw [length_assignStride]
        simp
        omega
    | some es =>
      simp only [get_object_list_embed, layoutWidth]
      refine ⟨?_, ?_, fun ei h => Option.noConfusion h, ?_, hmem⟩
      · refine (getElem?_assignStride_mod_miss _ _ _ _ _ (by omega)).trans ?_
        refine (getElem?_assignStride_mod_miss _ _ _ _ _ (by omega)).trans ?_
        rw [show k * 3 = 0 + k * 3 by omega]
        refine (getElem?_assignStride_hit _ _ _ _ _ (by norm_num)
          (by simpa using hk) ?_).trans (getElem?_map_getD _ _ 0 _ hk)
        simp
        omega
      · refine (getElem?_assignStride_mod_miss _ _ _ _ _ (by omega)).trans ?_
        rw [show k * 3 + 1 = 1 + k * 3 by omega]
        refine (getElem?_assignStride_hit _ _ _ _ _ (by norm_num)
          (by simpa using hk) ?_).trans (getElem?_map_getD _ _ 0 _ hk)
        rw [length_assignStride]
        simp
        omega
      · intro es' h
        cases h
        have hif : (if (none : Option (List α)).isNone then 2 else 3) = 2 := rfl
        rw [hif, show k * 3 + 2 = 2 + k * 3 by omega]
        refine (getElem?_assignStride_hit _ _ _ _ _ (by norm_num)
          (by simpa using hk) ?_).trans (getElem?_map_getD _ _ 0 _ hk)
        rw [length_assignStride, length_assignStride]
        simp
        omega
  | some ei =>
    cases embed_scene with
    | none =>
      simp only [get_object_list_embed, layoutWidth]
      refine ⟨?_, ?_, ?_, fun es h => Option.noConfusion h, hmem⟩
      · refine (getElem?_assignStride_mod_miss _ _ _ _ _ (by omega)).trans ?_
        refine (getElem?_assignStride_mod_miss _ _ _ _ _ (by omega)).trans ?_
        rw [show k * 3 = 0 + k * 3 by omega]
        refine (getElem?_assignStride_hit _ _ _ _ _ (by norm_num)
          (by simpa using hk) ?_).trans (getElem?_map_getD _ _ 0 _ hk)
        simp
        omega
      · refine (getElem?_assignStride_mod_miss _ _ _ _ _ (by omega)).trans ?_
        rw [show k * 3 + 1 = 1 + k * 3 by omega]
        refine (getElem?_assignStride_hit _ _ _ _ _ (by norm_num)
          (by simpa using hk) ?_).trans (getElem?_map_getD _ _ 0 _ hk)
        rw [length_assignStride]
        simp
        omega
      · intro ei' h
        cases h
        rw [show k * 3 + 2 = 2 + k * 3 by omega]
        refine (getElem?_assignStride_hit _ _ _ _ _ (by norm_num)
          (by simpa using hk) ?_).trans (getElem?_map_getD _ _ 0 _ hk)
        rw [length_assignStride, length_assignStride]
        simp
        omega
    | some es =>
      simp only [get_object_list_embed, layoutWidth]
      refine ⟨?_, ?_, ?_, ?_, hmem⟩
      · refine (getElem?_assignStride_mod_miss _ _ _ _ _ (by omega)).trans ?_
        refine (getElem?_assignStride_mod_miss _ _ _ _ _ (by omega)).trans ?_
        refine (getElem?_assignStride_mod_miss _ _ _ _ _ (by omega)).trans ?_
        rw [show k * 4 = 0 + k * 4 by omega]
        refine (getElem?_assignStride_hit _ _ _ _ _ (by norm_num)
          (by simpa using hk) ?_).trans (getElem?_map_getD _ _ 0 _ hk)
        simp
        omega
      · refine (getElem?_assignStride_mod_miss _ _ _ _ _ (by omega)).trans ?_
        refine (getElem?_assignStride_mod_miss _ _ _ _ _ (by omega)).trans ?_
        rw [show k * 4 + 1 = 1 + k * 4 by omega]
        refine (getElem?_assignStride_hit _ _ _ _ _ (by norm_num)
          (by simpa using hk) ?_).trans (getElem?_map_getD _ _ 0 _ hk)
        rw [length_assignStride]
        simp
        omega
      · intro ei' h
        cases h
        refine (getElem?_assignStride_mod_miss _ _ _ _ _ (by omega)).trans ?_
        rw [show k * 4 + 2 = 2 + k * 4 by omega]
        refine (getElem?_assignStride_hit _ _ _ _ _ (by norm_num)
          (by simpa using hk) ?_).trans (getElem?_map_getD _ _ 0 _ hk)
        rw [length_assignStride, length_assignStride]
        simp
        omega
      · intro es' h
        cases h
        have hif : (if (some ei : Option (List α)).isNone then 2 else 3) = 3 := rfl
        rw [hif, show k * 4 + 3 = 3 + k * 4 by omega]
        refine (getElem?_assignStride_hit _ _ _ _ _ (by norm_num)
          (by simpa using hk) ?_).trans (getElem?_map_getD _ _ 0 _ hk)
        rw [length_assignStride, length_assignStride, length_assignStride]
        simp
        omega

theorem claim_C3_witness :
    (get_object_list_embed (0 : ℤ) [10, 20, 30] [1, 2, 3] (some [4, 5, 6])
        (some [7, 8, 9]) [1, 0])[0]? = some 20
    ∧ (get_object_list_embed (0 : ℤ) [10, 20, 30] [1, 2, 3] (some [4, 5, 6])
        (some [7, 8, 9]) [1, 0])[1]? = some 2
    ∧ (get_object_list_embed (0 : ℤ) [10, 20, 30] [1, 2, 3] (some [4, 5, 6])
        (some [7, 8, 9]) [1, 0])[2]? = some 5
    ∧ (get_object_list_embed (0 : ℤ) [10, 20, 30] [1, 2, 3] (some [4, 5, 6])
        (some [7, 8, 9]) [1, 0])[3]? = some 8
    ∧ 1 ∈ validIds [1, 1, 0] := by
  have h := claim_C3_strided_layout (0 : ℤ) [10, 20, 30] [1, 2, 3]
    (some [4, 5, 6]) (some [7, 8, 9]) [1, 1, 0] [1, 0] 0
    (by decide) (by decide) (by decide)
  exact ⟨h.1, h.2.1, h.2.2.1 _ rfl, h.2.2.2.1 _ rfl, h.2.2.2.2⟩

/-- C7 (corrected): with zero valid objects `get_object_list_embed` raises
nothing; the strided general path runs on an empty valid list and silently
returns an empty (0-row) block, which `forward_stage2` then concatenates
between its fixed prefix and suffix. -/
theorem claim_C7_zero_valid_silent {α : Type} (zero : α)
    (objid_embeds embed_obj : List α) (embed_img embed_scene : Option (List α))
    (scene_mask : List ℤ) (valid_ids : List Nat)
    (hzero : validIds scene_mask = [])
    (hperm : valid_ids.Perm (validIds scene_mask)) :
    get_object_list_embed zero objid_embeds embed_obj embed_img embed_scene
      valid_ids = [] := by
  rw [hzero] at hperm
  have hv : valid_ids = [] := hperm.eq_nil
  subst hv
  cases embed_img <;> cases embed_scene <;> rfl

theorem claim_C7_witness :
    get_object_list_embed (0 : ℤ) [10, 20] [1, 2] none (some [6, 7]) [] = [] :=
  claim_C7_zero_valid_silent (0 : ℤ) [10, 20] [1, 2] none (some [6, 7]) [0, 0] []
    (by decide) (by decide)

/-- C7 counterexample: an all-invalid scene mask.  The per-example
construction does not fail: it returns a well-defined empty object block in
every layout, rather than raising. -/
theorem claim_C7_counterexample :
    validIds [0, 0] = [] ∧
    get_object_list_embed (0 : ℤ) [10, 20] [1, 2] none none [] = [] ∧
    get_object_list_embed (0 : ℤ) [10, 20] [1, 2] (some [4, 5]) (some [6, 7]) []
      = [] := by
  decide

theorem length_le_maxLen {α : Type} {t : List α} {ls : List (List α)}
    (h : t ∈ ls) : t.length ≤ maxLen ls := by
  induction ls with
  | nil => simp at h
  | cons a as ih =>
    rcases List.mem_cons.mp h with rfl | h'
    · exact show t.length ≤ max t.length (maxLen as) from le_max_left _ _
    · exact le_trans (ih h')
        (show maxLen as ≤ max a.length (maxLen as) from le_max_right _ _)

theorem length_pad_and_trim {α : Type} (ls : List (List α)) (m : Nat) (pv : α) :
    (pad_and_trim ls m pv).length = ls.length := by
  unfold pad_and_trim pad_sequence
  by_cases h : m < maxLen ls <;> simp [h]

/-- Each row of `pad_and_trim` is the matching input row, right-padded with
the padding value up to `m` and cut to its first `m` entries. -/
theorem getElem?_pad_and_trim {α : Type} (ls : List (List α)) (m : Nat) (pv : α)
    (hm : m ≤ maxLen ls) (j : Nat) (hj : j < ls.length) :
    (pad_and_trim ls m pv)[j]?
      = some (((ls.getD j [])
          ++ List.replicate (m - (ls.getD j []).length) pv).take m) := by
  have hx : ls[j]? = some (ls.getD j []) := by
    rw [List.getElem?_eq_getElem hj, List.getD_eq_getElem ls [] hj]
  have htm : ls.getD j [] ∈ ls := by
    rw [List.getD_eq_getElem ls [] hj]
    exact List.getElem_mem hj
  have htl : (ls.getD j []).length ≤ maxLen ls := length_le_maxLen htm
  unfold pad_and_trim pad_sequence
  by_cases hcase : m < maxLen ls
  · rw [if_pos hcase, List.getElem?_map, List.getElem?_map, hx]
    simp only [Option.map_some']
    congr 1
    rw [List.take_append_eq_append_take, List.take_append_eq_append_take]
    congr 1
    rw [List.take_replicate, List.take_replicate]
    congr 1
    omega
  · rw [if_neg hcase, List.getElem?_map, hx]
    refine congrArg some ?_
    have hmm : m = maxLen ls := le_antisymm hm (not_lt.mp hcase)
    rw [← hmm, List.take_of_length_le]
    simp only [List.length_append, List.length_replicate]
    omega

theorem length_mem_pad_and_trim {α : Type} (ls : List (List α)) (m : Nat)
    (pv : α) (hm : m ≤ maxLen ls) (r : List α) (hr : r ∈ pad_and_trim ls m pv) :
    r.length = m := by
  unfold pad_and_trim pad_sequence at hr
  by_cases hc : m < maxLen ls
  · rw [if_pos hc] at hr
    simp only [List.map_map, List.mem_map, Function.comp] at hr
    obtain ⟨t, htm, rfl⟩ := hr
    have := length_le_maxLen htm
    simp only [List.length_take, List.length_append, List.length_replicate]
    omega
  · rw [if_neg hc] at hr
    simp only [List.mem_map] at hr
    obtain ⟨t, htm, rfl⟩ := hr
    have := length_le_maxLen htm
    simp only [List.length_append, List.length_replicate]
    omega

theorem maxLen_map_congr {β α₁ α₂ : Type} (f : β → List α₁) (g : β → List α₂)
    (l : List β) (h : ∀ b ∈ l, (f b).length = (g b).length) :
    maxLen (l.map f) = maxLen (l.map g) := by
  induction l with
  | nil => rfl
  | cons a as ih =>
    show max (f a).length (maxLen (as.map f)) = max (g a).length (maxLen (as.map g))
    rw [h a (by simp), ih (fun b hb => h b (by simp [hb]))]

/-- C4: `forward_stage2` computes `max_seq_len = min(768, max packed length)`;
the returned embedding, mask and label tensors all have leading dimensions
`batch × max_seq_len`; every row is the packed row right-padded with `0`
(embeddings and mask) or `-100` (labels) and cut to its first `max_seq_len`
entries (right truncation only). -/
theorem claim_C4_batch_padding {α : Type} (pad_token_id : ℤ) (zero : α)
    (examples : List (Stage2Example α)) (s j : Nat)
    (hlen : ∀ e ∈ examples, e.to_regress_embed.length = e.answer_ids.length
        ∧ e.answer_attn.length = e.answer_ids.length)
    (hs : s = min 768 (maxLen (examples.map input_embed)))
    (hj : j < examples.length) :
    (forward_stage2_pack pad_token_id zero examples).1 = s
    ∧ (forward_stage2_pack pad_token_id zero examples).2.1.length = examples.length
    ∧ (forward_stage2_pack pad_token_id zero examples).2.2.1.length = examples.length
    ∧ (forward_stage2_pack pad_token_id zero examples).2.2.2.length = examples.length
    ∧ (forward_stage2_pack pad_token_id zero examples).2.1[j]?
        = some ((((examples.map input_embed).getD j [])
            ++ List.replicate (s - ((examples.map input_embed).getD j []).length)
              zero).take s)
    ∧ (forward_stage2_pack pad_token_id zero examples).2.2.1[j]?
        = some ((((examples.map exampleAttn).getD j [])
            ++ List.replicate (s - ((examples.map exampleAttn).getD j []).length)
              (0 : ℤ)).take s)
    ∧ (forward_stage2_pack pad_token_id zero examples).2.2.2[j]?
        = some ((((examples.map (exampleTarget pad_token_id)).getD j [])
            ++ List.replicate
              (s - ((examples.map (exampleTarget pad_token_id)).getD j []).length)
              (-100 : ℤ)).take s)
    ∧ (∀ r ∈ (forward_stage2_pack pad_token_id zero examples).2.1, r.length = s)
    ∧ (∀ r ∈ (forward_stage2_pack pad_token_id zero examples).2.2.1, r.length = s)
    ∧ (∀ r ∈ (forward_stage2_pack pad_token_id zero examples).2.2.2, r.length = s) := by
  have hTI : maxLen (examples.map (exampleTarget pad_token_id))
      = maxLen (examples.map input_embed) := by
    apply maxLen_map_congr
    intro e he
    have h1 := (hlen e he).1
    simp only [exampleTarget, input_embed, List.length_append,
      List.length_replicate, List.length_map]
    omega
  have hAI : maxLen (examples.map exampleAttn)
      = maxLen (examples.map input_embed) := by
    apply maxLen_map_congr
    intro e he
    have h1 := (hlen e he).1
    have h2 := (hlen e he).2
    simp only [exampleAttn, input_embed, List.length_append,
      List.length_replicate]
    omega
  have hmI : s ≤ maxLen (examples.map input_embed) := by
    rw [hs]; exact min_le_right _ _
  have hmA : s ≤ maxLen (examples.map exampleAttn) := by rw [hAI]; exact hmI
  have hmT : s ≤ maxLen (examples.map (exampleTarget pad_token_id)) := by
    rw [hTI]; exact hmI
  have hpack : forward_stage2_pack pad_token_id zero examples
      = (s, pad_and_trim (examples.map input_embed) s zero,
         pad_and_trim (examples.map exampleAttn) s 0,
         pad_and_trim (examples.map (exampleTarget pad_token_id)) s (-100)) := by
    simp only [forward_stage2_pack]
    rw [hTI, ← hs]
  rw [hpack]
  refine ⟨rfl, ?_, ?_, ?_, ?_, ?_, ?_, ?_, ?_, ?_⟩
  · simp [length_pad_and_trim]
  · simp [length_pad_and_trim]
  · simp [length_pad_and_trim]
  · exact getElem?_pad_and_trim _ s _ hmI j (by simpa using hj)
  · exact getElem?_pad_and_trim _ s _ hmA j (by simpa using hj)
  · exact getElem?_pad_and_trim _ s _ hmT j (by simpa using hj)
  · intro r hr
    exact length_mem_pad_and_trim _ _ _ hmI r hr
  · intro r hr
    exact length_mem_pad_and_trim _ _ _ hmA r hr
  · intro r hr
    exact length_mem_pad_and_trim _ _ _ hmT r hr

theorem claim_C4_witness :
    (forward_stage2_pack 4 (0 : ℤ) [⟨[5], [6], [7], [8], [9, 9], [3, 4], [1, 1]⟩]).1 = 6
    ∧ (forward_stage2_pack 4 (0 : ℤ) [⟨[5], [6], [7], [8], [9, 9], [3, 4], [1, 1]⟩]).2.1.length = 1
    ∧ (forward_stage2_pack 4 (0 : ℤ) [⟨[5], [6], [7], [8], [9, 9], [3, 4], [1, 1]⟩]).2.2.1.length = 1
    ∧ (forward_stage2_pack 4 (0 : ℤ) [⟨[5], [6], [7], [8], [9, 9], [3, 4], [1, 1]⟩]).2.2.2.length = 1
    ∧ (forward_stage2_pack 4 (0 : ℤ) [⟨[5], [6], [7], [8], [9, 9], [3, 4], [1, 1]⟩]).2.1[0]?
        = some [5, 6, 7, 8, 9, 9]
    ∧ (forward_stage2_pack 4 (0 : ℤ) [⟨[5], [6], [7], [8], [9, 9], [3, 4], [1, 1]⟩]).2.2.1[0]?
        = some [1, 1, 1, 1, 1, 1]
    ∧ (forward_stage2_pack 4 (0 : ℤ) [⟨[5], [6], [7], [8], [9, 9], [3, 4], [1, 1]⟩]).2.2.2[0]?
        = some [-100, -100, -100, -100, 3, -100]
    ∧ (∀ r ∈ (forward_stage2_pack 4 (0 : ℤ) [⟨[5], [6], [7], [8], [9, 9], [3, 4], [1, 1]⟩]).2.1, r.length = 6)
    ∧ (∀ r ∈ (forward_stage2_pack 4 (0 : ℤ) [⟨[5], [6], [7], [8], [9, 9], [3, 4], [1, 1]⟩]).2.2.1, r.length = 6)
    ∧ (∀ r ∈ (forward_stage2_pack 4 (0 : ℤ) [⟨[5], [6], [7], [8], [9, 9], [3, 4], [1, 1]⟩]).2.2.2, r.length = 6) := by
  have h := claim_C4_batch_padding 4 (0 : ℤ)
    [⟨[5], [6], [7], [8], [9, 9], [3, 4], [1, 1]⟩] 6 0
    (by decide) (by decide) (by decide)
  exact ⟨h.1, h.2.1, h.2.2.1, h.2.2.2.1, h.2.2.2.2.1, h.2.2.2.2.2.1,
    h.2.2.2.2.2.2.1, h.2.2.2.2.2.2.2.1, h.2.2.2.2.2.2.2.2.1,
    h.2.2.2.2.2.2.2.2.2⟩

/-- C5: in the per-example label sequence built by `forward_stage2`, every
position of the wrapped segments (prefix, object block, suffix, prompt)
equals the ignore sentinel `-100`; every position of the answer segment
equals its token id, except pad-token positions, which equal `-100`. -/
theorem claim_C5_label_masking {α : Type} (pad_token_id : ℤ)
    (e : Stage2Example α) (j k : Nat)
    (hj : j < (wrapped_embed e).length) (hk : k < e.answer_ids.length) :
    (exampleTarget pad_token_id e)[j]? = some (-100)
    ∧ (exampleTarget pad_token_id e)[(wrapped_embed e).length + k]?
        = some (if e.answer_ids.getD k 0 = pad_token_id then -100
            else e.answer_ids.getD k 0) := by
  constructor
  · unfold exampleTarget
    rw [List.getElem?_append]
    have hjl : j < (List.replicate (wrapped_embed e).length (-100 : ℤ)).length := by
      simpa using hj
    rw [if_pos hjl]
    simp [List.getElem?_replicate, hj]
  · unfold exampleTarget
    rw [List.getElem?_append_right (by simp)]
    simp only [List.length_replicate]
    rw [show (wrapped_embed e).length + k - (wrapped_embed e).length = k by omega]
    exact getElem?_map_getD _ _ 0 _ hk

theorem claim_C5_witness :
    (exampleTarget 4 (⟨[5], [6], [7], [8], [9, 9], [3, 4], [1, 1]⟩ : Stage2Example ℤ))[0]?
      = some (-100)
    ∧ (exampleTarget 4 (⟨[5], [6], [7], [8], [9, 9], [3, 4], [1, 1]⟩ : Stage2Example ℤ))[5]?
      = some (-100) := by
  have h := claim_C5_label_masking 4
    (⟨[5], [6], [7], [8], [9, 9], [3, 4], [1, 1]⟩ : Stage2Example ℤ) 0 1
    (by decide) (by decide)
  exact ⟨h.1, h.2⟩

theorem minP_pinf_left (x : PFloat) : PFloat.minP PFloat.pinf x = x := by
  cases x <;> rfl

theorem maxP_ninf_left (x : PFloat) : PFloat.maxP PFloat.ninf x = x := by
  cases x <;> rfl

theorem reduceMin_cons (a : PFloat) (l : List PFloat) :
    reduceMin (a :: l) = PFloat.minP a (reduceMin l) := rfl

theorem reduceMax_cons (a : PFloat) (l : List PFloat) :
    reduceMax (a :: l) = PFloat.maxP a (reduceMax l) := rfl

theorem validMin_cons_pos (m : ℤ) (ms : List ℤ) (q : ℚ) (qs : List ℚ)
    (h : 0 < m) :
    validMin (m :: ms) (q :: qs) = PFloat.minP (PFloat.fin q) (validMin ms qs) := by
  unfold validMin
  rw [List.zip_cons_cons, List.filter_cons_of_pos (by simpa using h),
    List.map_cons, List.foldr_cons]

theorem validMin_cons_neg (m : ℤ) (ms : List ℤ) (q : ℚ) (qs : List ℚ)
    (h : ¬ 0 < m) :
    validMin (m :: ms) (q :: qs) = validMin ms qs := by
  unfold validMin
  rw [List.zip_cons_cons, List.filter_cons_of_neg (by simpa using h)]

theorem validMax_cons_pos (m : ℤ) (ms : List ℤ) (q : ℚ) (qs : List ℚ)
    (h : 0 < m) :
    validMax (m :: ms) (q :: qs) = PFloat.maxP (PFloat.fin q) (validMax ms qs) := by
  unfold validMax
  rw [List.zip_cons_cons, List.filter_cons_of_pos (by simpa using h),
    List.map_cons, List.foldr_cons]

theorem validMax_cons_neg (m : ℤ) (ms : List ℤ) (q : ℚ) (qs : List ℚ)
    (h : ¬ 0 < m) :
    validMax (m :: ms) (q :: qs) = validMax ms qs := by
  unfold validMax
  rw [List.zip_cons_cons, List.filter_cons_of_neg (by simpa using h)]

theorem reduceMin_proj (g : ℚ × ℚ × ℚ → ℚ) (gP : PFloat × PFloat × PFloat → PFloat)
    (hfin : ∀ a b c : ℚ,
      gP (PFloat.fin a, PFloat.fin b, PFloat.fin c) = PFloat.fin (g (a, b, c)))
    (hinf : gP (PFloat.pinf, PFloat.pinf, PFloat.pinf) = PFloat.pinf) :
    ∀ (mask : List ℤ) (xyz : List (ℚ × ℚ × ℚ)),
      reduceMin (((List.zip mask xyz).map (fun p =>
          if 0 < p.1 then (PFloat.fin p.2.1, PFloat.fin p.2.2.1, PFloat.fin p.2.2.2)
          else (PFloat.pinf, PFloat.pinf, PFloat.pinf))).map gP)
        = validMin mask (xyz.map g)
  | [], _ => rfl
  | _ :: _, [] => rfl
  | m :: ms, v :: vs => by
    simp only [List.zip_cons_cons, List.map_cons, reduceMin_cons]
    by_cases h : (0 : ℤ) < m
    · rw [if_pos h, hfin, validMin_cons_pos _ _ _ _ h,
        reduceMin_proj g gP hfin hinf ms vs]
    · rw [if_neg h, hinf, validMin_cons_neg _ _ _ _ h,
        reduceMin_proj g gP hfin hinf ms vs, minP_pinf_left]

theorem reduceMax_proj (g : ℚ × ℚ × ℚ → ℚ) (gP : PFloat × PFloat × PFloat → PFloat)
    (hfin : ∀ a b c : ℚ,
      gP (PFloat.fin a, PFloat.fin b, PFloat.fin c) = PFloat.fin (g (a, b, c)))
    (hinf : gP (PFloat.ninf, PFloat.ninf, PFloat.ninf) = PFloat.ninf) :
    ∀ (mask : List ℤ) (xyz : List (ℚ × ℚ × ℚ)),
      reduceMax (((List.zip mask xyz).map (fun p =>
          if 0 < p.1 then (PFloat.fin p.2.1, PFloat.fin p.2.2.1, PFloat.fin p.2.2.2)
          else (PFloat.ninf, PFloat.ninf, PFloat.ninf))).map gP)
        = validMax mask (xyz.map g)
  | [], _ => rfl
  | _ :: _, [] => rfl
  | m :: ms, v :: vs => by
    simp only [List.zip_cons_cons, List.map_cons, reduceMax_cons]
    by_cases h : (0 : ℤ) < m
    · rw [if_pos h, hfin, validMax_cons_pos _ _ _ _ h,
        reduceMax_proj g gP hfin hinf ms vs]
    · rw [if_neg h, hinf, validMax_cons_neg _ _ _ _ h,
        reduceMax_proj g gP hfin hinf ms vs, maxP_ninf_left]

theorem validMin_of_invalid : ∀ (mask : List ℤ) (vals : List ℚ),
    (∀ m ∈ mask, m ≤ 0) → validMin mask vals = PFloat.pinf
  | [], _, _ => rfl
  | _ :: _, [], _ => rfl
  | m :: ms, q :: qs, h => by
    rw [validMin_cons_neg _ _ _ _ (by have := h m (by simp); omega)]
    exact validMin_of_invalid ms qs (fun x hx => h x (by simp [hx]))

theorem validMax_of_invalid : ∀ (mask : List ℤ) (vals : List ℚ),
    (∀ m ∈ mask, m ≤ 0) → validMax mask vals = PFloat.ninf
  | [], _, _ => rfl
  | _ :: _, [], _ => rfl
  | m :: ms, q :: qs, h => by
    rw [validMax_cons_neg _ _ _ _ (by have := h m (by simp); omega)]
    exact validMax_of_invalid ms qs (fun x hx => h x (by simp [hx]))

/-- C6: `get_min_max_coord` computes, per coordinate component, the minimum
and maximum over valid objects only, by substituting `+∞` (for the min
reduction) and `-∞` (for the max reduction) at invalid slots before
reducing; a scene with zero valid objects therefore yields `(+∞, -∞)` per
component rather than an error. -/
theorem claim_C6_min_max_masking (xyz : List (ℚ × ℚ × ℚ)) (scene_mask : List ℤ) :
    get_min_max_coord xyz scene_mask
      = ((validMin scene_mask (xyz.map (fun v => v.1)),
          validMin scene_mask (xyz.map (fun v => v.2.1)),
          validMin scene_mask (xyz.map (fun v => v.2.2))),
         (validMax scene_mask (xyz.map (fun v => v.1)),
          validMax scene_mask (xyz.map (fun v => v.2.1)),
          validMax scene_mask (xyz.map (fun v => v.2.2))))
    ∧ ((∀ m ∈ scene_mask, m ≤ 0) →
        get_min_max_coord xyz scene_mask
          = ((PFloat.pinf, PFloat.pinf, PFloat.pinf),
             (PFloat.ninf, PFloat.ninf, PFloat.ninf))) := by
  have heq : get_min_max_coord xyz scene_mask
      = ((validMin scene_mask (xyz.map (fun v => v.1)),
          validMin scene_mask (xyz.map (fun v => v.2.1)),
          validMin scene_mask (xyz.map (fun v => v.2.2))),
         (validMax scene_mask (xyz.map (fun v => v.1)),
          validMax scene_mask (xyz.map (fun v => v.2.1)),
          validMax scene_mask (xyz.map (fun v => v.2.2)))) := by
    simp only [get_min_max_coord]
    rw [reduceMin_proj (fun v => v.1) (fun v => v.1) (fun _ _ _ => rfl) rfl,
      reduceMin_proj (fun v => v.2.1) (fun v => v.2.1) (fun _ _ _ => rfl) rfl,
      reduceMin_proj (fun v => v.2.2) (fun v => v.2.2) (fun _ _ _ => rfl) rfl,
      reduceMax_proj (fun v => v.1) (fun v => v.1) (fun _ _ _ => rfl) rfl,
      reduceMax_proj (fun v => v.2.1) (fun v => v.2.1) (fun _ _ _ => rfl) rfl,
      reduceMax_proj (fun v => v.2.2) (fun v => v.2.2) (fun _ _ _ => rfl) rfl]
  refine ⟨heq, fun h => ?_⟩
  rw [heq, validMin_of_invalid _ _ h, validMin_of_invalid _ _ h,
    validMin_of_invalid _ _ h, validMax_of_invalid _ _ h,
    validMax_of_invalid _ _ h, validMax_of_invalid _ _ h]

theorem claim_C6_witness :
    get_min_max_coord [((1 : ℚ), (2 : ℚ), (3 : ℚ))] [0]
      = ((validMin [0] ([((1 : ℚ), (2 : ℚ), (3 : ℚ))].map (fun v => v.1)),
          validMin [0] ([((1 : ℚ), (2 : ℚ), (3 : ℚ))].map (fun v => v.2.1)),
          validMin [0] ([((1 : ℚ), (2 : ℚ), (3 : ℚ))].map (fun v => v.2.2))),
         (validMax [0] ([((1 : ℚ), (2 : ℚ), (3 : ℚ))].map (fun v => v.1)),
          validMax [0] ([((1 : ℚ), (2 : ℚ), (3 : ℚ))].map (fun v => v.2.1)),
          validMax [0] ([((1 : ℚ), (2 : ℚ), (3 : ℚ))].map (fun v => v.2.2))))
    ∧ ((∀ m ∈ ([0] : List ℤ), m ≤ 0) →
        get_min_max_coord [((1 : ℚ), (2 : ℚ), (3 : ℚ))] [0]
          = ((PFloat.pinf, PFloat.pinf, PFloat.pinf),
             (PFloat.ninf, PFloat.ninf, PFloat.ninf))) :=
  claim_C6_min_max_masking _ _

/-- C9: the values returned by `get_text_emb` are identical whether
`train_emb` is on or off: the per-token blend `(1 - m) * detach(e) + m * e`
and the full detach are both the identity on values, so the flag affects
only gradient routing. -/
theorem claim_C9_train_emb_value_invariance (ori_vocab_size : Nat)
    (embed_tokens : Nat → List ℚ) (input_ids : List Nat) :
    get_text_emb true ori_vocab_size embed_tokens input_ids
      = get_text_emb false ori_vocab_size embed_tokens input_ids := by
  unfold get_text_emb
  rw [if_pos rfl, if_neg (by simp)]
  apply List.map_congr_left
  intro t _
  have hval : ∀ x : ℚ,
      (1 - (if ori_vocab_size ≤ t then (1 : ℚ) else 0)) * x
        + (if ori_vocab_size ≤ t then (1 : ℚ) else 0) * x = x := fun x => by ring
  calc (embed_tokens t).map (fun x =>
        (1 - (if ori_vocab_size ≤ t then (1 : ℚ) else 0)) * x
          + (if ori_vocab_size ≤ t then (1 : ℚ) else 0) * x)
      = (embed_tokens t).map id := List.map_congr_left (fun x _ => hval x)
    _ = embed_tokens t := List.map_id _

theorem pySplitHead_front (sep : List Char) : ∀ s : List Char,
    pySplitHead sep s <+: s
  | [] => by simp [pySplitHead]
  | c :: cs => by
    unfold pySplitHead
    by_cases h : sep.isPrefixOf (c :: cs)
    · rw [if_pos h]
      exact List.nil_prefix
    · rw [if_neg h]
      exact List.cons_prefix_cons.mpr ⟨rfl, pySplitHead_front sep cs⟩

theorem pySplitHead_no_sep (sep : List Char) (hsep : sep ≠ []) :
    ∀ s : List Char, ¬ sep <:+: pySplitHead sep s
  | [] => by
    intro hinf
    exact hsep (List.infix_nil.mp hinf)
  | c :: cs => by
    unfold pySplitHead
    by_cases h : sep.isPrefixOf (c :: cs)
    · rw [if_pos h]
      intro hinf
      exact hsep (List.infix_nil.mp hinf)
    · rw [if_neg h]
      intro hinf
      rcases List.infix_cons_iff.mp hinf with hpre | hinf'
      · have hp2 : c :: pySplitHead sep cs <+: c :: cs :=
          List.cons_prefix_cons.mpr ⟨rfl, pySplitHead_front sep cs⟩
        exact h ( List.isPrefixOf_iff_prefix.mpr (hpre.trans hp2))
      · exact pySplitHead_no_sep sep hsep cs hinf'

theorem pySplitHead_append_sep (sep : List Char) (hsep : sep ≠ []) :
    ∀ s : List Char, sep <:+: s → pySplitHead sep s ++ sep <+: s
  | [] => fun hinf => absurd (List.infix_nil.mp hinf) hsep
  | c :: cs => by
    intro hinf
    unfold pySplitHead
    by_cases h : sep.isPrefixOf (c :: cs)
    · rw [if_pos h]
      simpa using List.isPrefixOf_iff_prefix.mp h
    · rw [if_neg h]
      rcases List.infix_cons_iff.mp hinf with hpre | hinf'
      · exact absurd ( List.isPrefixOf_iff_prefix.mpr hpre) h
      · exact List.cons_prefix_cons.mpr
          ⟨rfl, pySplitHead_append_sep sep hsep cs hinf'⟩

/-- C8: `evaluate` post-processes decoded text by truncating at the first
occurrence of the end-of-turn marker, then collapsing double spaces, then
removing space-before-period artifacts, then stripping outer whitespace, in
that order.  The truncation is characterized: the kept part is a prefix of
the decoded text, contains no occurrence of the marker, and (when the marker
occurs at all) is followed immediately by the marker. -/
theorem claim_C8_postprocess (end_sym output_text : List Char)
    (hsep : end_sym ≠ []) :
    postprocessOutput end_sym output_text
      = pyStrip (pyReplace [' ', '.'] ['.']
          (pyReplace [' ', ' '] [' '] (pySplitHead end_sym output_text)))
    ∧ pySplitHead end_sym output_text <+: output_text
    ∧ ¬ end_sym <:+: pySplitHead end_sym output_text
    ∧ (end_sym <:+: output_text →
        pySplitHead end_sym output_text ++ end_sym <+: output_text) :=
  ⟨rfl, pySplitHead_front end_sym output_text,
   pySplitHead_no_sep end_sym hsep output_text,
   pySplitHead_append_sep end_sym hsep output_text⟩

theorem claim_C8_witness :
    postprocessOutput ['<', 'e'] ['h', 'i', ' ', ' ', 'x', '<', 'e', 'z']
      = pyStrip (pyReplace [' ', '.'] ['.']
          (pyReplace [' ', ' ']
            [' '] (pySplitHead ['<', 'e'] ['h', 'i', ' ', ' ', 'x', '<', 'e', 'z'])))
    ∧ pySplitHead ['<', 'e'] ['h', 'i', ' ', ' ', 'x', '<', 'e', 'z']
        <+: ['h', 'i', ' ', ' ', 'x', '<', 'e', 'z']
    ∧ ¬ ['<', 'e'] <:+: pySplitHead ['<', 'e'] ['h', 'i', ' ', ' ', 'x', '<', 'e', 'z']
    ∧ (['<', 'e'] <:+: ['h', 'i', ' ', ' ', 'x', '<', 'e', 'z'] →
        pySplitHead ['<', 'e'] ['h', 'i', ' ', ' ', 'x', '<', 'e', 'z'] ++ ['<', 'e']
          <+: ['h', 'i', ' ', ' ', 'x', '<', 'e', 'z']) :=
  claim_C8_postprocess ['<', 'e'] ['h', 'i', ' ', ' ', 'x', '<', 'e', 'z']
    (by decide)

/-- C10: applying `get_box3d_min_max` to `construct_bbox_corners c s` with a
non-negative box size recovers exactly `center ± size/2` per axis. -/
theorem claim_C10_bbox_roundtrip (cx cy cz sx sy sz : ℚ)
    (hx : 0 ≤ sx) (hy : 0 ≤ sy) (hz : 0 ≤ sz) :
    get_box3d_min_max (construct_bbox_corners (cx, cy, cz) (sx, sy, sz))
      = (cx - sx / 2, cx + sx / 2, cy - sy / 2, cy + sy / 2,
         cz - sz / 2, cz + sz / 2) := by
  have ha : -sx / 2 + cx ≤ sx / 2 + cx := by linarith
  have hb : -sy / 2 + cy ≤ sy / 2 + cy := by linarith
  have hc : -sz / 2 + cz ≤ sz / 2 + cz := by linarith
  simp only [construct_bbox_corners, get_box3d_min_max, npColMin, npColMax,
    List.map_cons, List.map_nil, List.zip_cons_cons, List.zip_nil_right,
    List.foldl_cons, List.foldl_nil, Prod.mk.injEq]
  refine ⟨?_, ?_, ?_, ?_, ?_, ?_⟩ <;>
    simp only [min_self, max_self, min_eq_right ha, min_eq_left ha,
      max_eq_left ha, max_eq_right ha, min_eq_right hb, min_eq_left hb,
      max_eq_left hb, max_eq_right hb, min_eq_right hc, min_eq_left hc,
      max_eq_left hc, max_eq_right hc] <;>
    ring

theorem claim_C10_witness :
    get_box3d_min_max (construct_bbox_corners ((1 : ℚ), 2, 3) ((2 : ℚ), 4, 6))
      = (1 - 2 / 2, 1 + 2 / 2, 2 - 4 / 2, 2 + 4 / 2, 3 - 6 / 2, 3 + 6 / 2) :=
  claim_C10_bbox_roundtrip 1 2 3 2 4 6 (by decide) (by decide) (by decide)

end Chat3D
